import Mathlib

set_option maxRecDepth 40000

/-!
Verification of the MultiQC Atropos module (`multiqc/modules/atropos/atropos.py`).

The development shallowly embeds `MultiqcModule.parse_atropos_logs` and the
per-file loop of `MultiqcModule.__init__`.  A log file is a `List String`
whose elements are the lines as Python file iteration yields them, i.e.
each line still carries its terminating newline character.  Python `int`
values become `Int`, Python `float` values are modelled by exact rational
arithmetic (`ℚ`); every decimal literal the code can parse is an exact
rational, so the modelled arithmetic agrees with the source formulas.
Python dictionaries (insertion ordered, last-write-wins) become
association lists with an update-in-place `insertD`.  Exceptions
(`ValueError` from `int`/`float`, `KeyError` from subscripting,
`StopIteration` from `next`, `ZeroDivisionError`) become an `Except` error
result; as in the source, an uncaught exception aborts the whole per-file
loop.  The concrete regular expressions of the source are embedded as
hand-written matchers: each one is deterministic because adjacent
character classes in the patterns are disjoint, so greedy maximal-munch
matching is equivalent to backtracking search.
-/

namespace Atropos

/-- Python whitespace (`str.split`, `\s` for the ASCII range). -/
def isPySpace (c : Char) : Bool :=
  c = ' ' || c = '\t' || c = '\n' || c = '\r' || c = '\x0b' || c = '\x0c'

/-- Decimal digit test, `\d` for the ASCII range. -/
def isDigitC (c : Char) : Bool := '0' ≤ c && c ≤ '9'

/-- Character class `[\d,]`. -/
def isDigitComma (c : Char) : Bool := isDigitC c || c = ','

/-- Character class `[\d\.,]`. -/
def isDigitDotComma (c : Char) : Bool := isDigitC c || c = '.' || c = ','

/-- Character class `[\d\.]`. -/
def isDigitDot (c : Char) : Bool := isDigitC c || c = '.'

/-- Does `pat` occur at the head of `cs`? -/
def subAt : List Char → List Char → Bool
  | [], _ => true
  | _ :: _, [] => false
  | a :: as, b :: bs => a = b && subAt as bs

/-- Does `pat` occur anywhere in `cs`?  Models Python `pat in s`. -/
def hasSubL (pat : List Char) : List Char → Bool
  | [] => subAt pat []
  | c :: t => subAt pat (c :: t) || hasSubL pat t

/-- Python `s.startswith(p)`. -/
def startsWithStr (l p : String) : Bool := subAt p.toList l.toList

/-- Python `p in s`. -/
def hasSubStr (l p : String) : Bool := hasSubL p.toList l.toList

/-- Accumulator pass of `str.split()`: split on whitespace runs, drop empties. -/
def splitWsAux : List Char → List Char → List (List Char)
  | acc, [] => if acc.isEmpty then [] else [acc.reverse]
  | acc, c :: t =>
    if isPySpace c then
      if acc.isEmpty then splitWsAux [] t else acc.reverse :: splitWsAux [] t
    else splitWsAux (c :: acc) t

/-- Python `s.split()` (whitespace split, empties dropped). -/
def splitWs (s : String) : List (List Char) := splitWsAux [] s.toList

/-- Python `s.split()[0]`; `none` models the `IndexError` case. -/
def firstTok (s : String) : Option String :=
  match splitWs s with
  | [] => none
  | w :: _ => some (String.mk w)

/-- Python `s.split()[-1]`; `none` models the `IndexError` case. -/
def lastTok (s : String) : Option String :=
  match (splitWs s).getLast? with
  | none => none
  | some w => some (String.mk w)

/-- Value of a list of decimal digit characters (most significant first). -/
def digitsToNat : List Char → Nat
  | [] => 0
  | c :: t => (c.toNat - '0'.toNat) * 10 ^ t.length + digitsToNat t

/-- Python `int(g.replace(',', ''))` on a `[\d,]+` capture: strip commas and
read the digits; the empty result (an all-comma capture) raises
`ValueError`, modelled by `none`. -/
def intOfGroup (g : List Char) : Option Int :=
  let ds := g.filter (fun c => c ≠ ',')
  if ds.isEmpty then none else some (digitsToNat ds : Nat)

/-- Python `float(g.replace(',', ''))` on a `[\d\.,]+` capture: strip commas,
then accept digit strings with at most one dot and at least one digit
(`"1."` and `".5"` are valid Python floats, `""`, `"."` and `"1.2.3"` are
not).  The value is the exact rational the decimal denotes. -/
def floatOfGroup (g : List Char) : Option ℚ :=
  let ds := g.filter (fun c => c ≠ ',')
  let ip := ds.takeWhile (fun c => c ≠ '.')
  match ds.dropWhile (fun c => c ≠ '.') with
  | [] => if ds.isEmpty then none else some (digitsToNat ip : ℚ)
  | _ :: fp =>
    if fp.any (fun c => c = '.') then none
    else if ip.isEmpty && fp.isEmpty then none
    else some ((digitsToNat ip : ℚ) + (digitsToNat fp : ℚ) / (10 : ℚ) ^ fp.length)

/-- Continuation of a scalar regex after its literal part: `\s*([\d,]+)\s`.
Returns the captured group.  Maximal munch is exact here because `\s` and
`[\d,]` are disjoint classes and the trailing `\s` cannot be satisfied by
shortening the greedy group. -/
def scalarCont (cs : List Char) : Option (List Char) :=
  let r := cs.dropWhile isPySpace
  let g := r.takeWhile isDigitComma
  match r.dropWhile isDigitComma with
  | [] => none
  | c :: _ => if g.isEmpty then none else if isPySpace c then some g else none

/-- Leftmost-match search (`re.search`) for a pattern `lit ++ \s*([\d,]+)\s`:
try every start position left to right; a match must begin at an
occurrence of the literal. -/
def scalarSearchL (lit : List Char) : List Char → Option (List Char)
  | [] => none
  | c :: t =>
    match (if subAt lit (c :: t) then scalarCont ((c :: t).drop lit.length) else none) with
    | some g => some g
    | none => scalarSearchL lit t

/-- Search (`re.search`) of one scalar regex (literal head, then `\s*([\d,]+)\s`)
against a line. -/
def scalarSearch (lit l : String) : Option (List Char) :=
  scalarSearchL lit.toList l.toList

/-- The histogram-row regex `^\s+(\d+)\s+([\d,]+)\s+([\d\.,]+)` (anchored
`re.search`).  Note the mandatory leading whitespace.  Returns the length
(group 1, always pure digits) and the raw captures of groups 2 and 3. -/
def histRowMatch (l : String) : Option (Nat × List Char × List Char) :=
  let cs := l.toList
  let sp0 := cs.takeWhile isPySpace
  let r0 := cs.dropWhile isPySpace
  let g1 := r0.takeWhile isDigitC
  let r1 := r0.dropWhile isDigitC
  let sp1 := r1.takeWhile isPySpace
  let r2 := r1.dropWhile isPySpace
  let g2 := r2.takeWhile isDigitComma
  let r3 := r2.dropWhile isDigitComma
  let sp2 := r3.takeWhile isPySpace
  let r4 := r3.dropWhile isPySpace
  let g3 := r4.takeWhile isDigitDotComma
  if sp0.isEmpty || g1.isEmpty || sp1.isEmpty || g2.isEmpty || sp2.isEmpty || g3.isEmpty
  then none
  else some (digitsToNat g1, g2, g3)

/-- Match for `re.match(r'.*Adapter \d', l)`: some occurrence of `"Adapter "`
followed by a digit, with no newline among the characters the `.*`
consumes before it. -/
def adapterMarkerL : List Char → Bool
  | [] => false
  | c :: t =>
    (subAt ("Adapter ".toList) (c :: t) &&
      (match (c :: t).drop 8 with
       | [] => false
       | d :: _ => isDigitC d)) ||
    (c ≠ '\n' && adapterMarkerL t)

/-- Match for `re.match(r'.*Adapter \d', l)` on a line. -/
def adapterMarkerStr (l : String) : Bool := adapterMarkerL l.toList

/-- Match for `re.match(r'Atropos version: ([\d\.]+)', l)`: anchored literal then at
least one character of `[\d\.]`. -/
def versionLineMatch (l : String) : Bool :=
  let cs := l.toList
  let lit := "Atropos version: ".toList
  subAt lit cs &&
    (match cs.drop lit.length with
     | [] => false
     | d :: _ => isDigitDot d)

/-- First-match lookup in an insertion-ordered association list (Python
dict subscript read). -/
def lookupD {α : Type} [DecidableEq α] {β : Type} : List (α × β) → α → Option β
  | [], _ => none
  | (k, v) :: t, k0 => if k0 = k then some v else lookupD t k0

/-- Python dict assignment `d[k] = v`: update in place if the key exists,
otherwise append at the end (insertion order preserved). -/
def insertD {α : Type} [DecidableEq α] {β : Type} : List (α × β) → α → β → List (α × β)
  | [], k0, v0 => [(k0, v0)]
  | (k, v) :: t, k0, v0 => if k0 = k then (k, v0) :: t else (k, v) :: insertD t k0 v0

/-- The key list of an association list, in order. -/
def keysD {α β : Type} (d : List (α × β)) : List α := d.map Prod.fst

/-- A Python value stored in `atropos_data`: an `int` (`I`) or a `float`
(`F`, modelled by the exact rational it denotes). -/
inductive Val where
  | I : Int → Val
  | F : ℚ → Val
deriving DecidableEq

/-- The Python exceptions the parsing code can raise. -/
inductive ParseErr where
  | valueError
  | keyError
  | stopIteration
  | indexError
  | zeroDivisionError
deriving DecidableEq

/-- One sample's record in `atropos_data`. -/
abbrev SampleRec := List (String × Val)

/-- Model of `self.atropos_data`: sample name → record. -/
abbrev DataMap := List (String × SampleRec)

/-- Model of `self.atropos_length_counts`: adapter → sample → trimmed length → count. -/
abbrev HistC := List (String × List (String × List (Nat × Int)))

/-- Model of `self.atropos_length_exp`: adapter → sample → trimmed length → expected
count (a Python float, modelled exactly). -/
abbrev HistE := List (String × List (String × List (Nat × ℚ)))

/-- The module's accumulated outputs (the fields initialised in
`__init__` and mutated by `parse_atropos_logs`).  `data_sources` records
the `self.add_data_source(f, s_name)` calls, one sample name per call. -/
structure AtroposState where
  data : DataMap
  length_counts : HistC
  length_exp : HistE
  found_adapters : List String
  data_sources : List String
deriving DecidableEq

/-- The transient per-file parse context: the local variables `s_name`,
`atropos_version` and `paired` of `parse_atropos_logs`. -/
structure RunCtx where
  s_name : Option String
  version : String
  paired : String
deriving DecidableEq

/-- Control position of the scanner.  `outer` is the main loop; `skip n s`
is in the middle of the four unconditional `next(fh)` skips after an
adapter marker; `adapterLine s` is about to read the adapter-sequence
line; `inner a s at_hdr in_hist` is the nested histogram sub-scan with
its two flags. -/
inductive Mode where
  | outer
  | skip (n : Nat) (s : String)
  | adapterLine (s : String)
  | inner (a s : String) (at_hd in_hist : Bool)
deriving DecidableEq

/-- The `'1.1.5_paired'` regex table: key and literal head of each pattern
(each pattern is the literal followed by `\s*([\d,]+)\s`), in source
order. -/
def regexes_paired : List (String × String) :=
  [("bp_processed", "Total bp processed:"),
   ("bp_written", "Total bp written (filtered):"),
   ("quality_trimmed", "Quality-trimmed:"),
   ("r_processed", "Total read pairs processed:"),
   ("r1_with_adapters", "Read 1 with adapter:"),
   ("r2_with_adapters", "Read 2 with adapter:"),
   ("r_written", "Pairs written (passing filters):")]

/-- The `'1.1.5_single'` regex table, in source order. -/
def regexes_single : List (String × String) :=
  [("bp_processed", "Total bp processed:"),
   ("bp_written", "Total bp written (filtered):"),
   ("quality_trimmed", "Quality-trimmed:"),
   ("r_processed", "Total reads processed:"),
   ("r_with_adapters", "Reads with adapter:"),
   ("r_written", "Reads written (passing filters):")]

/-- Lookup `regexes['%s_%s' % (atropos_version, paired)]`; `none` models the
`KeyError` on an unknown key (unreachable: the version is always
`"1.1.5"` and `paired` is always `"single"` or `"paired"`). -/
def familyFor (ctx : RunCtx) : Option (List (String × String)) :=
  if ctx.version = "1.1.5" then
    if ctx.paired = "paired" then some regexes_paired
    else if ctx.paired = "single" then some regexes_single
    else none
  else none

/-- Steps 1–3 of the outer loop body on one line: the version-marker reset
(`s_name = None` plus the collapsed version gate), the input-format mode
update, and the sample-ID handling (name extraction, `-` sentinel,
sanitization, record overwrite `self.atropos_data[s_name] = dict()`). -/
def stepPre (clean : String → String) (fallback : String) (ctx : RunCtx)
    (data : DataMap) (l : String) : RunCtx × DataMap :=
  let ctx1 :=
    if hasSubStr l "Atropos version" then
      { ctx with s_name := none,
                 version := if versionLineMatch l then "1.1.5" else ctx.version }
    else ctx
  let ctx2 :=
    if startsWithStr l "Input format: " && hasSubStr l "Paired" then
      { ctx1 with paired := "paired" }
    else ctx1
  if startsWithStr l "Sample ID: " then
    match lastTok l with
    | none => (ctx2, data)
    | some raw =>
      let s := if raw = "-" then fallback else clean raw
      ({ ctx2 with s_name := some s }, insertD data s [])
  else (ctx2, data)

/-- Assignment `self.atropos_data[s_name][k] = v`: `none` models the `KeyError` when
the sample's record is absent (unreachable while `s_name` is set). -/
def setField (data : DataMap) (s k : String) (v : Val) : Option DataMap :=
  match lookupD data s with
  | none => none
  | some r => some (insertD data s (insertD r k v))

/-- The `for k, r in regexes[...].items()` loop on one line: each matching
regex stores its capture as an `int`; an all-comma capture raises
`ValueError`. -/
def applyRegexes (fam : List (String × String)) (s : String) (data : DataMap)
    (l : String) : Except ParseErr DataMap :=
  match fam with
  | [] => .ok data
  | (k, lit) :: t =>
    match scalarSearch lit l with
    | none => applyRegexes t s data l
    | some g =>
      match intOfGroup g with
      | none => .error .valueError
      | some n =>
        match setField data s k (Val.I n) with
        | none => .error .keyError
        | some d1 => applyRegexes t s d1 l

/-- Processing of the adapter-sequence line: register the first token in
the discovery list if new, initialise `length_counts[a]`/`length_exp[a]`
if `a` is new to `length_counts`, then set the `(a, s)` entries of both
histograms to fresh empty dicts.  The `KeyError` cases are the
subscript reads `length_counts[a]` / `length_exp[a]`. -/
def adapterInit (a s : String) (st : AtroposState) : Except ParseErr AtroposState :=
  let found :=
    if a ∈ st.found_adapters then st.found_adapters else st.found_adapters ++ [a]
  let (c0, e0) :=
    if (lookupD st.length_counts a).isSome then (st.length_counts, st.length_exp)
    else (insertD st.length_counts a [], insertD st.length_exp a [])
  match lookupD c0 a with
  | none => .error .keyError
  | some mc =>
    match lookupD e0 a with
    | none => .error .keyError
    | some me =>
      .ok { st with
            found_adapters := found,
            length_counts := insertD c0 a (insertD mc s []),
            length_exp := insertD e0 a (insertD me s []) }

/-- Assignment `h[a][s][n] = v` on a nested histogram dict; `KeyError` when the outer
levels are absent. -/
def setHist {α : Type} (h : List (String × List (String × List (Nat × α))))
    (a s : String) (n : Nat) (v : α) :
    Except ParseErr (List (String × List (String × List (Nat × α)))) :=
  match lookupD h a with
  | none => .error .keyError
  | some m =>
    match lookupD m s with
    | none => .error .keyError
    | some mm => .ok (insertD h a (insertD m s (insertD mm n v)))

/-- One matching histogram row: `int` conversion of group 2, store into
`length_counts`, `float` conversion of group 3, store into `length_exp`,
in source evaluation order. -/
def recordRow (a s : String) (n : Nat) (g2 g3 : List Char) (st : AtroposState) :
    Except ParseErr AtroposState :=
  match intOfGroup g2 with
  | none => .error .valueError
  | some cnt =>
    match setHist st.length_counts a s n cnt with
    | .error e => .error e
    | .ok c1 =>
      match floatOfGroup g3 with
      | none => .error .valueError
      | some q =>
        match setHist st.length_exp a s n q with
        | .error e => .error e
        | .ok e1 => .ok { st with length_counts := c1, length_exp := e1 }

/-- The line scan of `parse_atropos_logs`, all loops flattened into one
recursion over the remaining lines with an explicit control `Mode`.
Exhausting the input in `skip`/`adapterLine` mode is the `StopIteration`
raised by the explicit `next(fh)` calls; exhausting it in `outer` or
`inner` mode ends the scan normally.  In `inner` mode a non-matching row
with `in_hist` set is the `break`: the line is consumed and control
returns to the outer loop at the next line. -/
def scanLines (clean : String → String) (fb : String) :
    Mode → RunCtx → AtroposState → List String → Except ParseErr (RunCtx × AtroposState)
  | mode, ctx, st, [] =>
    match mode with
    | .skip _ _ => .error .stopIteration
    | .adapterLine _ => .error .stopIteration
    | _ => .ok (ctx, st)
  | mode, ctx, st, l :: rest =>
    match mode with
    | .skip n s =>
      scanLines clean fb (if n ≤ 1 then .adapterLine s else .skip (n - 1) s) ctx st rest
    | .adapterLine s =>
      match firstTok l with
      | none => .error .indexError
      | some a =>
        match adapterInit a s st with
        | .error e => .error e
        | .ok st1 => scanLines clean fb (.inner a s false false) ctx st1 rest
    | .inner a s hd hist =>
      if hist then
        match histRowMatch l with
        | none => scanLines clean fb .outer ctx st rest
        | some (n, g2, g3) =>
          match recordRow a s n g2 g3 st with
          | .error e => .error e
          | .ok st1 => scanLines clean fb (.inner a s hd true) ctx st1 rest
      else if hd then
        scanLines clean fb (.inner a s true (startsWithStr l "---")) ctx st rest
      else
        scanLines clean fb
          (.inner a s (startsWithStr l "Overview of removed sequences:") false) ctx st rest
    | .outer =>
      let p := stepPre clean fb ctx st.data l
      let ctx1 := p.1
      let st1 := { st with data := p.2 }
      match ctx1.s_name with
      | none => scanLines clean fb .outer ctx1 st1 rest
      | some s =>
        let st2 := { st1 with data_sources := st1.data_sources ++ [s] }
        match familyFor ctx1 with
        | none => .error .keyError
        | some fam =>
          match applyRegexes fam s st2.data l with
          | .error e => .error e
          | .ok d2 =>
            let st3 := { st2 with data := d2 }
            if adapterMarkerStr l then
              scanLines clean fb (.skip 4 s) ctx1 st3 rest
            else
              scanLines clean fb .outer ctx1 st3 rest

/-- Numeric value of a stored Python number (for `float(...)` coercion and
arithmetic). -/
def valToRat : Val → ℚ
  | .I n => (n : ℚ)
  | .F q => q

/-- Python `int(...)` on a stored number (truncation toward zero on a
float; the reachable cases are already ints). -/
def valTrunc : Val → Int
  | .I n => n
  | .F q => q.num / (q.den : Int)

/-- The finalization body for one sample record: add
`r_lost = int(d['r_processed']) - int(d['r_written'])` (`KeyError` when
either is absent), then the `percent_trimmed` branches exactly as in the
source (`bp_processed` with `bp_written`, else `bp_processed` with
`bp_trimmed`, else nothing), with `ZeroDivisionError` on a zero
`bp_processed`. -/
def finalizeRecord (d : SampleRec) : Except ParseErr SampleRec :=
  match lookupD d "r_processed", lookupD d "r_written" with
  | some p, some w =>
    let d1 := insertD d "r_lost" (Val.I (valTrunc p - valTrunc w))
    if (lookupD d1 "bp_processed").isSome && (lookupD d1 "bp_written").isSome then
      match lookupD d1 "bp_processed", lookupD d1 "bp_written" with
      | some bp, some bw =>
        if valToRat bp = 0 then .error .zeroDivisionError
        else
          .ok (insertD d1 "percent_trimmed"
                (Val.F ((valToRat bp - valToRat bw) / valToRat bp * 100)))
      | _, _ => .ok d1
    else if (lookupD d1 "bp_processed").isSome && (lookupD d1 "bp_trimmed").isSome then
      match lookupD d1 "bp_processed", lookupD d1 "bp_trimmed" with
      | some bp, some bt =>
        let q :=
          match lookupD d1 "quality_trimmed" with
          | some qv => valToRat qv
          | none => 0
        if valToRat bp = 0 then .error .zeroDivisionError
        else
          .ok (insertD d1 "percent_trimmed"
                (Val.F ((valToRat bt + q) / valToRat bp * 100)))
      | _, _ => .ok d1
    else .ok d1
  | _, _ => .error .keyError

/-- The `for s_name, d in self.atropos_data.items()` finalization loop, in
insertion order, first failure propagating. -/
def finalizeData : DataMap → Except ParseErr DataMap
  | [] => .ok []
  | (s, d) :: t =>
    match finalizeRecord d with
    | .error e => .error e
    | .ok d1 =>
      match finalizeData t with
      | .error e => .error e
      | .ok t1 => .ok ((s, d1) :: t1)

/-- The context at function entry: `s_name = None`,
`atropos_version = '1.1.5'`, `paired = 'single'`. -/
def initCtx : RunCtx := { s_name := none, version := "1.1.5", paired := "single" }

/-- The body of `parse_atropos_logs(self, f)` on one file: scan every line from the
fresh per-call context, then run the finalization pass over the whole
accumulated `atropos_data`. -/
def parse_atropos_logs (clean : String → String) (fb : String) (st : AtroposState)
    (lines : List String) : Except ParseErr AtroposState :=
  match scanLines clean fb .outer initCtx st lines with
  | .error e => .error e
  | .ok (_, st1) =>
    match finalizeData st1.data with
    | .error e => .error e
    | .ok d1 => .ok { st1 with data := d1 }

/-- The state after the `__init__` field initialisations: every container
empty. -/
def initState : AtroposState :=
  { data := [], length_counts := [], length_exp := [],
    found_adapters := [], data_sources := [] }

/-- The per-file loop of `__init__`
(`for f in self.find_log_files(...): self.parse_atropos_logs(f)`): files
processed in order, no exception handler, so the first error aborts the
loop.  Each file is a fallback sample name (`f['s_name']`) paired with
its lines. -/
def runFiles (clean : String → String) :
    List (String × List String) → AtroposState → Except ParseErr AtroposState
  | [], st => .ok st
  | (fb, ls) :: t, st =>
    match parse_atropos_logs clean fb st ls with
    | .error e => .error e
    | .ok st1 => runFiles clean t st1

/-- The whole discovery loop from the initial empty state. -/
def runAll (clean : String → String) (files : List (String × List String)) :
    Except ParseErr AtroposState :=
  runFiles clean files initState

/-- An identity sample-name sanitizer, used to instantiate the external
`clean_s_name` collaborator in concrete runs. -/
def cleanId : String → String := fun s => s

instance {ε α : Type} [DecidableEq ε] [DecidableEq α] : DecidableEq (Except ε α) :=
  fun x y =>
    match x, y with
    | .ok a, .ok b =>
      if h : a = b then .isTrue (by rw [h])
      else .isFalse (by intro hc; cases hc; exact h rfl)
    | .error a, .error b =>
      if h : a = b then .isTrue (by rw [h])
      else .isFalse (by intro hc; cases hc; exact h rfl)
    | .ok _, .error _ => .isFalse (by intro hc; cases hc)
    | .error _, .ok _ => .isFalse (by intro hc; cases hc)

/-- The per-sample key list of one adapter's histogram entry, lengths
only. -/
def shape2 {α : Type} (m : List (String × List (Nat × α))) : List (String × List Nat) :=
  m.map (fun p => (p.1, keysD p.2))

/-- The full key structure of a nested histogram: adapters, their
samples, and each sample's lengths, values erased. -/
def shape3 {α : Type} (h : List (String × List (String × List (Nat × α)))) :
    List (String × List (String × List Nat)) :=
  h.map (fun p => (p.1, shape2 p.2))

/-- The invariants a scan step preserves between two states: the adapter
discovery list only grows at the end, by elements it did not yet contain
(so first-appearance order and freedom from duplicates are preserved),
and the two histograms keep equal key structure. -/
def presPred (st st' : AtroposState) : Prop :=
  (∃ t, st'.found_adapters = st.found_adapters ++ t ∧
        ∀ a ∈ t, a ∉ st.found_adapters) ∧
  (st.found_adapters.Nodup → st'.found_adapters.Nodup) ∧
  (shape3 st.length_counts = shape3 st.length_exp →
    shape3 st'.length_counts = shape3 st'.length_exp)

/-- A single-file log whose only sample record never receives
`r_processed`/`r_written`, so finalization raises `KeyError`. -/
def cxFileMissing : List String := ["Sample ID: a\n"]

/-- A well-formed single-sample log. -/
def cxFileGood : List String :=
  ["Sample ID: b\n",
   "Total reads processed: 10 \n",
   "Reads written (passing filters): 8 \n"]

/-- A log whose sample has `bp_processed` and `quality_trimmed` but
neither `bp_written` nor `bp_trimmed`. -/
def cxFileQualityOnly : List String :=
  ["Sample ID: s1\n",
   "Total reads processed: 100 \n",
   "Reads written (passing filters): 90 \n",
   "Total bp processed: 1,000 \n",
   "Quality-trimmed: 50 \n"]

/-- A log whose histogram row carries no leading whitespace. -/
def cxFileHistNoIndent : List String :=
  ["Sample ID: s1\n",
   "Total reads processed: 100 \n",
   "Reads written (passing filters): 90 \n",
   "=== Adapter 1 ===\n",
   "---\n", "\n", "header\n", "---\n",
   "ACGT 5 3 2\n",
   "Overview of removed sequences:\n",
   "---\n",
   "10   500   450.2\n"]

/-- The same log with one leading space on the histogram row. -/
def cxFileHistIndent : List String :=
  ["Sample ID: s1\n",
   "Total reads processed: 100 \n",
   "Reads written (passing filters): 90 \n",
   "=== Adapter 1 ===\n",
   "---\n", "\n", "header\n", "---\n",
   "ACGT 5 3 2\n",
   "Overview of removed sequences:\n",
   "---\n",
   " 10   500   450.2\n"]

/-- A log with two blocks for the same sample name; only the second block
carries `r_processed`/`r_written`. -/
def cxFileTwoBlocks : List String :=
  ["Sample ID: s1\n",
   "Total bp processed: 1000 \n",
   "Sample ID: s1\n",
   "Total reads processed: 7 \n",
   "Reads written (passing filters): 3 \n"]

/-- A log in which the same adapter sequence `ACGT` appears in the
adapter sections of two different samples. -/
def cxFileAdapterTwice : List String :=
  ["Sample ID: s1\n",
   "Total reads processed: 10 \n",
   "Reads written (passing filters): 8 \n",
   "Adapter 1\n",
   "a\n", "b\n", "c\n", "d\n",
   "ACGT 12\n",
   "Overview of removed sequences:\n",
   "---\n",
   " 5   2   1.5\n",
   "end of section\n",
   "Sample ID: s2\n",
   "Total reads processed: 20 \n",
   "Reads written (passing filters): 16 \n",
   "Adapter 1\n",
   "a\n", "b\n", "c\n", "d\n",
   "ACGT 7\n",
   "Overview of removed sequences:\n",
   "---\n",
   " 6   3   2.5\n"]

/-- The module state `cxFileAdapterTwice` produces. -/
def stAdapterTwice : AtroposState :=
  { data := [("s1", [("r_processed", Val.I 10), ("r_written", Val.I 8), ("r_lost", Val.I 2)]),
             ("s2", [("r_processed", Val.I 20), ("r_written", Val.I 16), ("r_lost", Val.I 4)])],
    length_counts := [("ACGT", [("s1", [(5, 2)]), ("s2", [(6, 3)])])],
    length_exp := [("ACGT", [("s1", [(5, (3 : ℚ)/2)]), ("s2", [(6, (5 : ℚ)/2)])])],
    found_adapters := ["ACGT"],
    data_sources := ["s1", "s1", "s1", "s1", "s2", "s2", "s2", "s2"] }

@[simp] theorem keysD_nil {α β : Type} : keysD ([] : List (α × β)) = [] := rfl

@[simp] theorem keysD_cons {α β : Type} (p : α × β) (t : List (α × β)) :
    keysD (p :: t) = p.1 :: keysD t := rfl

theorem lookupD_insertD {α β : Type} [DecidableEq α] (d : List (α × β)) (k k' : α) (v : β) :
    lookupD (insertD d k v) k' = if k' = k then some v else lookupD d k' := by
  induction d with
  | nil => simp [insertD, lookupD]
  | cons p t ih =>
    obtain ⟨k0, v0⟩ := p
    by_cases h : k = k0
    · subst h
      by_cases h' : k' = k <;> simp [insertD, lookupD, h']
    · by_cases h' : k' = k0
      · subst h'
        have hk : ¬ k' = k := fun hc => h (by rw [← hc])
        simp [insertD, lookupD, h, hk]
      · simp [insertD, lookupD, h, h', ih]

theorem lookupD_map_val {α β γ : Type} [DecidableEq α] (f : β → γ)
    (d : List (α × β)) (k : α) :
    lookupD (d.map (fun p => (p.1, f p.2))) k = (lookupD d k).map f := by
  induction d with
  | nil => simp [lookupD]
  | cons p t ih =>
    by_cases h : k = p.1 <;> simp [lookupD, h, ih]

theorem map_val_insertD {α β γ : Type} [DecidableEq α] (f : β → γ)
    (d : List (α × β)) (k : α) (v : β) :
    (insertD d k v).map (fun p => (p.1, f p.2)) =
      insertD (d.map (fun p => (p.1, f p.2))) k (f v) := by
  induction d with
  | nil => simp [insertD]
  | cons p t ih =>
    by_cases h : k = p.1 <;> simp [insertD, h, ih]

theorem keysD_insertD {α β : Type} [DecidableEq α] (d : List (α × β)) (k : α) (v : β) :
    keysD (insertD d k v) =
      if (lookupD d k).isSome then keysD d else keysD d ++ [k] := by
  induction d with
  | nil => simp [insertD, lookupD]
  | cons p t ih =>
    obtain ⟨k0, v0⟩ := p
    by_cases h : k = k0
    · subst h; simp [insertD, lookupD]
    · simp only [insertD, if_neg h, keysD_cons, lookupD]
      rw [ih]
      by_cases h2 : (lookupD t k).isSome <;> simp [h2]

theorem lookupD_isSome_iff {α β : Type} [DecidableEq α] (d : List (α × β)) (k : α) :
    (lookupD d k).isSome ↔ k ∈ keysD d := by
  induction d with
  | nil => simp [lookupD, keysD]
  | cons p t ih =>
    by_cases h : k = p.1 <;> simp [lookupD, keysD, h, ih]

/-- Lemma: `shape2` seen through a lookup: the shape dict's entry at a key is the
shape of the dict's entry there. -/
theorem lookupD_shape2 {α : Type} (m : List (String × List (Nat × α))) (s : String) :
    lookupD (shape2 m) s = (lookupD m s).map keysD := by
  simpa [shape2] using lookupD_map_val (keysD (α := Nat) (β := α)) m s

/-- Lemma: `shape3` seen through a lookup. -/
theorem lookupD_shape3 {α : Type} (h : List (String × List (String × List (Nat × α))))
    (a : String) :
    lookupD (shape3 h) a = (lookupD h a).map shape2 := by
  simpa [shape3] using lookupD_map_val (shape2 (α := α)) h a

theorem shape2_insertD {α : Type} (m : List (String × List (Nat × α)))
    (s : String) (mm : List (Nat × α)) :
    shape2 (insertD m s mm) = insertD (shape2 m) s (keysD mm) := by
  simpa [shape2] using map_val_insertD (keysD (α := Nat) (β := α)) m s mm

theorem shape3_insertD {α : Type} (h : List (String × List (String × List (Nat × α))))
    (a : String) (m : List (String × List (Nat × α))) :
    shape3 (insertD h a m) = insertD (shape3 h) a (shape2 m) := by
  simpa [shape3] using map_val_insertD (shape2 (α := α)) h a m

/-- Two nested histograms of equal shape stay of equal shape after the
lockstep pair of `h[a][s][n] = v` stores. -/
theorem setHist_shape {α β : Type} {c : List (String × List (String × List (Nat × α)))}
    {e : List (String × List (String × List (Nat × β)))} {a s : String} {n : Nat}
    {v : α} {w : β} {c' : List (String × List (String × List (Nat × α)))}
    {e' : List (String × List (String × List (Nat × β)))}
    (hsh : shape3 c = shape3 e)
    (hc : setHist c a s n v = .ok c') (he : setHist e a s n w = .ok e') :
    shape3 c' = shape3 e' := by
  unfold setHist at hc he
  cases hma : lookupD c a with
  | none => simp [hma] at hc
  | some mc =>
    simp only [hma] at hc
    cases hmb : lookupD e a with
    | none => simp [hmb] at he
    | some me =>
      simp only [hmb] at he
      have h2 : shape2 mc = shape2 me := by
        have h1 := lookupD_shape3 c a
        have h1' := lookupD_shape3 e a
        rw [hsh, h1'] at h1
        rw [hma] at h1; rw [hmb] at h1
        simpa using h1.symm
      cases hmc : lookupD mc s with
      | none => simp [hmc] at hc
      | some mmc =>
        simp only [hmc] at hc
        cases hmd : lookupD me s with
        | none => simp [hmd] at he
        | some mme =>
          simp only [hmd] at he
          have h3 : keysD mmc = keysD mme := by
            have h1 := lookupD_shape2 mc s
            have h1' := lookupD_shape2 me s
            rw [h2, h1'] at h1
            rw [hmc] at h1; rw [hmd] at h1
            simpa using h1.symm
          cases hc; cases he
          rw [shape3_insertD, shape3_insertD, shape2_insertD, shape2_insertD,
              keysD_insertD, keysD_insertD, hsh, h2, h3]
          have h4 : (lookupD mmc n).isSome = (lookupD mme n).isSome := by
            by_cases hmem : n ∈ keysD mme
            · have t1 : (lookupD mmc n).isSome =true :=
                (lookupD_isSome_iff mmc n).2 (h3 ▸ hmem)
              have t2 : (lookupD mme n).isSome = true := (lookupD_isSome_iff mme n).2 hmem
              rw [t1, t2]
            · have t1 : ¬ (lookupD mmc n).isSome = true := fun hs =>
                hmem (h3 ▸ (lookupD_isSome_iff mmc n).1 hs)
              have t2 : ¬ (lookupD mme n).isSome = true := fun hs =>
                hmem ((lookupD_isSome_iff mme n).1 hs)
              simp [t1, t2]
          rw [h4]

/-- Effects of `adapterInit` when it succeeds: scalar data and provenance
untouched, the discovery list extended exactly when the adapter is new,
and equal histogram shapes preserved. -/
theorem adapterInit_ok {a s : String} {st st' : AtroposState}
    (h : adapterInit a s st = .ok st') :
    st'.data = st.data ∧ st'.data_sources = st.data_sources ∧
    ((a ∈ st.found_adapters ∧ st'.found_adapters = st.found_adapters) ∨
     (a ∉ st.found_adapters ∧ st'.found_adapters = st.found_adapters ++ [a])) ∧
    (shape3 st.length_counts = shape3 st.length_exp →
      shape3 st'.length_counts = shape3 st'.length_exp) := by
  unfold adapterInit at h
  by_cases hmem : (lookupD st.length_counts a).isSome = true
  · simp only [hmem, if_true] at h
    cases hma : lookupD st.length_counts a with
    | none => rw [hma] at hmem; simp at hmem
    | some mc =>
      rw [hma] at h
      cases hmb : lookupD st.length_exp a with
      | none => rw [hmb] at h; cases h
      | some me =>
        rw [hmb] at h
        cases h
        refine ⟨rfl, rfl, ?_, ?_⟩
        · by_cases hf : a ∈ st.found_adapters
          · exact Or.inl ⟨hf, by simp [hf]⟩
          · exact Or.inr ⟨hf, by simp [hf]⟩
        · intro hsh
          have h2 : shape2 mc = shape2 me := by
            have h1 := lookupD_shape3 st.length_counts a
            have h1' := lookupD_shape3 st.length_exp a
            rw [hsh, h1'] at h1
            rw [hma] at h1; rw [hmb] at h1
            simpa using h1.symm
          simp only [shape3_insertD, shape2_insertD, hsh, h2]
          rfl
  · simp only [hmem, if_false, Bool.false_eq_true] at h
    rw [lookupD_insertD, if_pos rfl, lookupD_insertD, if_pos rfl] at h
    cases h
    refine ⟨rfl, rfl, ?_, ?_⟩
    · by_cases hf : a ∈ st.found_adapters
      · exact Or.inl ⟨hf, by simp [hf]⟩
      · exact Or.inr ⟨hf, by simp [hf]⟩
    · intro hsh
      simp only [shape3_insertD, shape2_insertD, hsh]
      simp [shape2]

/-- Effects of `recordRow` when it succeeds: only the two histograms
change, in lockstep, so equal shapes are preserved. -/
theorem recordRow_ok {a s : String} {n : Nat} {g2 g3 : List Char} {st st' : AtroposState}
    (h : recordRow a s n g2 g3 st = .ok st') :
    st'.data = st.data ∧ st'.data_sources = st.data_sources ∧
    st'.found_adapters = st.found_adapters ∧
    (shape3 st.length_counts = shape3 st.length_exp →
      shape3 st'.length_counts = shape3 st'.length_exp) := by
  unfold recordRow at h
  cases h1 : intOfGroup g2 with
  | none => simp [h1] at h
  | some cnt =>
    simp only [h1] at h
    cases h2 : setHist st.length_counts a s n cnt with
    | error e => simp [h2] at h
    | ok c1 =>
      simp only [h2] at h
      cases h3 : floatOfGroup g3 with
      | none => simp [h3] at h
      | some q =>
        simp only [h3] at h
        cases h4 : setHist st.length_exp a s n q with
        | error e => simp [h4] at h
        | ok e1 =>
          simp only [h4] at h
          cases h
          exact ⟨rfl, rfl, rfl, fun hsh => setHist_shape hsh h2 h4⟩

theorem presPred_of_eq {st st' : AtroposState}
    (h1 : st'.found_adapters = st.found_adapters)
    (h2 : st'.length_counts = st.length_counts)
    (h3 : st'.length_exp = st.length_exp) : presPred st st' := by
  refine ⟨⟨[], by simp [h1], by simp⟩, fun h => h1 ▸ h, fun h => by rw [h2, h3]; exact h⟩

theorem presPred_refl (st : AtroposState) : presPred st st :=
  presPred_of_eq rfl rfl rfl

theorem presPred_trans {s1 s2 s3 : AtroposState}
    (h12 : presPred s1 s2) (h23 : presPred s2 s3) : presPred s1 s3 := by
  obtain ⟨⟨t1, ht1, ht1n⟩, hn12, hs12⟩ := h12
  obtain ⟨⟨t2, ht2, ht2n⟩, hn23, hs23⟩ := h23
  refine ⟨⟨t1 ++ t2, by rw [ht2, ht1, List.append_assoc], ?_⟩,
    fun h => hn23 (hn12 h), fun h => hs23 (hs12 h)⟩
  intro a ha
  rcases List.mem_append.1 ha with h1 | h2
  · exact ht1n a h1
  · intro hmem
    exact ht2n a h2 (by rw [ht1]; exact List.mem_append.2 (Or.inl hmem))

theorem presPred_of_adapterInit {a s : String} {st st' : AtroposState}
    (h : adapterInit a s st = .ok st') : presPred st st' := by
  obtain ⟨_, _, hf, hsh⟩ := adapterInit_ok h
  refine ⟨?_, ?_, hsh⟩
  · rcases hf with ⟨hmem, heq⟩ | ⟨hmem, heq⟩
    · exact ⟨[], by simp [heq], by simp⟩
    · exact ⟨[a], by simp [heq], by simpa using hmem⟩
  · intro hnd
    rcases hf with ⟨hmem, heq⟩ | ⟨hmem, heq⟩
    · rw [heq]; exact hnd
    · rw [heq]
      simpa [List.nodup_append] using ⟨hnd, hmem⟩

theorem presPred_of_recordRow {a s : String} {n : Nat} {g2 g3 : List Char}
    {st st' : AtroposState} (h : recordRow a s n g2 g3 st = .ok st') :
    presPred st st' := by
  obtain ⟨_, _, hf, hsh⟩ := recordRow_ok h
  exact ⟨⟨[], by simp [hf], by simp⟩, fun hh => hf ▸ hh, hsh⟩

/-- Every successful scan, from any control mode, satisfies `presPred`
between its start and end states. -/
theorem scan_pres (clean : String → String) (fb : String) :
    ∀ (lines : List String) (mode : Mode) (ctx : RunCtx) (st : AtroposState)
      (ctx' : RunCtx) (st' : AtroposState),
      scanLines clean fb mode ctx st lines = .ok (ctx', st') →
      presPred st st' := by
  intro lines
  induction lines with
  | nil =>
    intro mode ctx st ctx' st' h
    cases mode <;> simp [scanLines] at h
    · exact h.2 ▸ presPred_refl st
    · exact h.2 ▸ presPred_refl st
  | cons l rest ih =>
    intro mode ctx st ctx' st' h
    cases mode with
    | skip n s =>
      simp only [scanLines] at h
      exact ih _ _ _ _ _ h
    | adapterLine s =>
      simp only [scanLines] at h
      cases hft : firstTok l with
      | none => simp [hft] at h
      | some a =>
        simp only [hft] at h
        cases hai : adapterInit a s st with
        | error e => simp [hai] at h
        | ok st1 =>
          simp only [hai] at h
          exact presPred_trans (presPred_of_adapterInit hai) (ih _ _ _ _ _ h)
    | inner a s hd hist =>
      simp only [scanLines] at h
      cases hist with
      | true =>
        simp only [if_true] at h
        cases hrm : histRowMatch l with
        | none =>
          simp only [hrm] at h
          exact ih _ _ _ _ _ h
        | some g =>
          obtain ⟨n, g2, g3⟩ := g
          simp only [hrm] at h
          cases hrr : recordRow a s n g2 g3 st with
          | error e => simp [hrr] at h
          | ok st1 =>
            simp only [hrr] at h
            exact presPred_trans (presPred_of_recordRow hrr) (ih _ _ _ _ _ h)
      | false =>
        cases hd <;> simp only [Bool.false_eq_true, if_false] at h <;>
          exact ih _ _ _ _ _ h
    | outer =>
      simp only [scanLines] at h
      cases hp : stepPre clean fb ctx st.data l with
      | mk ctx1 d1 =>
        rw [hp] at h
        cases hs : ctx1.s_name with
        | none =>
          rw [hs] at h
          simp only at h
          have hmid := ih _ _ _ _ _ h
          exact presPred_trans (presPred_of_eq rfl rfl rfl) hmid
        | some s =>
          rw [hs] at h
          simp only at h
          cases hfam : familyFor ctx1 with
          | none => simp [hfam] at h
          | some fam =>
            simp only [hfam] at h
            cases har : applyRegexes fam s
                ({ st with data := d1 } : AtroposState).data l with
            | error e => simp [har] at h
            | ok d2 =>
              simp only [har] at h
              by_cases hmk : adapterMarkerStr l = true
              · simp only [hmk, if_true] at h
                have hmid := ih _ _ _ _ _ h
                exact presPred_trans (presPred_of_eq rfl rfl rfl) hmid
              · simp only [hmk, if_false, Bool.false_eq_true] at h
                have hmid := ih _ _ _ _ _ h
                exact presPred_trans (presPred_of_eq rfl rfl rfl) hmid

/-- The function `parse_atropos_logs` preserves `presPred` (the finalization pass only
rewrites `data`). -/
theorem parse_pres {clean : String → String} {fb : String} {st st' : AtroposState}
    {lines : List String} (h : parse_atropos_logs clean fb st lines = .ok st') :
    presPred st st' := by
  unfold parse_atropos_logs at h
  cases hsc : scanLines clean fb .outer initCtx st lines with
  | error e => simp [hsc] at h
  | ok p =>
    obtain ⟨ctx1, st1⟩ := p
    simp only [hsc] at h
    cases hfd : finalizeData st1.data with
    | error e => simp [hfd] at h
    | ok d1 =>
      simp only [hfd] at h
      cases h
      exact presPred_trans (scan_pres clean fb lines _ _ _ _ _ hsc)
        (presPred_of_eq rfl rfl rfl)

/-- The per-file loop preserves `presPred`. -/
theorem runFiles_pres (clean : String → String) :
    ∀ (files : List (String × List String)) (st st' : AtroposState),
      runFiles clean files st = .ok st' → presPred st st' := by
  intro files
  induction files with
  | nil =>
    intro st st' h
    simp [runFiles] at h
    exact h ▸ presPred_refl st
  | cons f t ih =>
    intro st st' h
    obtain ⟨fb, ls⟩ := f
    simp only [runFiles] at h
    cases hp : parse_atropos_logs clean fb st ls with
    | error e => simp [hp] at h
    | ok st1 =>
      simp only [hp] at h
      exact presPred_trans (parse_pres hp) (ih _ _ h)

theorem lookupD_insertD_self {α β : Type} [DecidableEq α]
    (d : List (α × β)) (k : α) (v : β) :
    lookupD (insertD d k v) k = some v := by
  rw [lookupD_insertD, if_pos rfl]

theorem lookupD_insertD_ne {α β : Type} [DecidableEq α]
    (d : List (α × β)) (k k' : α) (v : β) (h : k' ≠ k) :
    lookupD (insertD d k v) k' = lookupD d k' := by
  rw [lookupD_insertD, if_neg h]

/-- Claim C1, counterexample.  The claim says a fatal parse failure in one
file leaves the remaining discovered files processed and does not escape
the per-file loop.  Here the first file's sample lacks
`r_processed`/`r_written`, finalization raises `KeyError`, and the whole
run returns that error: the second file, which alone parses to a complete
state, contributes nothing. -/
theorem C1_counterexample :
    runAll cleanId [("f1", cxFileMissing), ("f2", cxFileGood)] =
      .error .keyError ∧
    runAll cleanId [("f2", cxFileGood)] =
      .ok { data := [("b", [("r_processed", Val.I 10), ("r_written", Val.I 8),
                            ("r_lost", Val.I 2)])],
            length_counts := [], length_exp := [], found_adapters := [],
            data_sources := ["b", "b", "b"] } :=
  ⟨by decide, by decide⟩

/-- Claim C1, amended: a fatal parse failure while processing one log file
propagates out of the per-file loop unchanged, so the remaining
discovered files are not processed. -/
theorem C1_amended (clean : String → String) (fb : String) (ls : List String)
    (fs : List (String × List String)) (st : AtroposState) (e : ParseErr)
    (h : parse_atropos_logs clean fb st ls = .error e) :
    runFiles clean ((fb, ls) :: fs) st = .error e := by
  simp [runFiles, h]

/-- Witness for C1: the amended claim applied to the two concrete files. -/
theorem C1_witness :
    runFiles cleanId [("f1", cxFileMissing), ("f2", cxFileGood)] initState =
      .error .keyError :=
  C1_amended cleanId "f1" cxFileMissing [("f2", cxFileGood)] initState
    .keyError (by decide)

/-- Claim C3, counterexample.  The claim says the exact line
`"10   500   450.2"`, with no other leading text, is recorded into both
histograms.  The histogram-row regex `^\s+(\d+)...` requires at least one
leading whitespace character, so this line terminates the sub-scan
instead: the `(ACGT, s1)` histogram entries exist but stay empty. -/
theorem C3_counterexample :
    ((runAll cleanId [("fb", cxFileHistNoIndent)]).toOption.bind
      (fun st => (lookupD st.length_counts "ACGT").bind
        (fun m => lookupD m "s1"))) = some [] ∧
    ((runAll cleanId [("fb", cxFileHistNoIndent)]).toOption.bind
      (fun st => (lookupD st.length_exp "ACGT").bind
        (fun m => lookupD m "s1"))) = some [] :=
  ⟨by decide, by decide⟩

/-- Claim C3, amended: a histogram row must begin with whitespace; the
line `" 10   500   450.2"` under an `Overview of removed sequences:`
section and its `---` separator is recorded so that
`length_counts[ACGT][s1][10] = 500` and
`length_exp[ACGT][s1][10] = 450.2`. -/
theorem C3_amended :
    ((runAll cleanId [("fb", cxFileHistIndent)]).toOption.bind
      (fun st => (lookupD st.length_counts "ACGT").bind
        (fun m => (lookupD m "s1").bind (fun mm => lookupD mm 10)))) =
      some 500 ∧
    ((runAll cleanId [("fb", cxFileHistIndent)]).toOption.bind
      (fun st => (lookupD st.length_exp "ACGT").bind
        (fun m => (lookupD m "s1").bind (fun mm => lookupD mm 10)))) =
      some ((4502 : ℚ) / 10) :=
  ⟨by with_unfolding_all decide, by with_unfolding_all decide⟩

/-- Claim C4, counterexample.  The claim says a version-marker line resets
the detected paired/single mode.  After `Input format: Paired-end` sets
paired mode, the version line resets only the sample name: the context
keeps `paired = "paired"` (the claim predicts a re-resolved, i.e. single,
mode). -/
theorem C4_counterexample :
    scanLines cleanId "fb" .outer initCtx initState
      ["Input format: Paired-end\n", "Atropos version: 1.1.5\n"] =
      .ok ({ s_name := none, version := "1.1.5", paired := "paired" },
           initState) := by
  decide

/-- Claim C7: the line that terminates the nested histogram sub-scan (the
first line in histogram-row mode the row regex rejects) is consumed:
scanning continues in outer mode at the following line, and the
terminating line itself never reaches the outer marker checks, whatever
it contains. -/
theorem C7_terminator_consumed (clean : String → String) (fb : String)
    (ctx : RunCtx) (st : AtroposState) (a s : String) (hd : Bool)
    (l : String) (rest : List String) (h : histRowMatch l = none) :
    scanLines clean fb (.inner a s hd true) ctx st (l :: rest) =
      scanLines clean fb .outer ctx st rest := by
  simp [scanLines, h]

/-- Witness for C7: a terminating line that is itself a `Sample ID:`
marker creates no sample record. -/
theorem C7_witness :
    scanLines cleanId "fb" (.inner "ACGT" "s1" true true) initCtx initState
      ["Sample ID: s2\n"] = .ok (initCtx, initState) := by
  rw [C7_terminator_consumed cleanId "fb" initCtx initState "ACGT" "s1" true
    "Sample ID: s2\n" [] (by decide)]
  rfl

/-- Claim C4, amended: a line containing the version marker resets the
current sample name to none and re-resolves the version idempotently
(it stays `"1.1.5"`), but the detected paired/single mode is NOT reset:
it changes only if the same line is also an input-format marker.  A
sample-ID line leaves mode and version untouched. -/
theorem C4_amended (clean : String → String) (fb : String) (ctx : RunCtx)
    (data : DataMap) (l : String) :
    (hasSubStr l "Atropos version" = true →
     startsWithStr l "Sample ID: " = false →
     (stepPre clean fb ctx data l).1.s_name = none ∧
     (stepPre clean fb ctx data l).1.paired =
       (if startsWithStr l "Input format: " && hasSubStr l "Paired" then "paired"
        else ctx.paired) ∧
     (ctx.version = "1.1.5" → (stepPre clean fb ctx data l).1.version = "1.1.5") ∧
     (stepPre clean fb ctx data l).2 = data) ∧
    (startsWithStr l "Sample ID: " = true →
     hasSubStr l "Atropos version" = false →
     startsWithStr l "Input format: " = false →
     (stepPre clean fb ctx data l).1.paired = ctx.paired ∧
     (stepPre clean fb ctx data l).1.version = ctx.version) := by
  constructor
  · intro h1 h2
    unfold stepPre
    simp only [h1, h2, if_true, Bool.false_eq_true, if_false]
    refine ⟨?_, ?_, ?_, ?_⟩
    · first | trivial | (split <;> rfl)
    · first | trivial | (split <;> rfl)
    · intro hv
      split <;> simp_all
    · trivial
  · intro h1 h2 h3
    unfold stepPre
    simp only [h1, h2, h3, Bool.false_eq_true, if_false, Bool.false_and, if_true]
    cases hlt : lastTok l <;> simp

/-- Witness for C4: a version-marker line seen while a sample is active
and paired mode is set clears the sample name but keeps paired mode. -/
theorem C4_witness :
    (stepPre cleanId "fb" ⟨some "x", "1.1.5", "paired"⟩ []
      "Atropos version: 1.1.5\n").1.s_name = none ∧
    (stepPre cleanId "fb" ⟨some "x", "1.1.5", "paired"⟩ []
      "Atropos version: 1.1.5\n").1.paired = "paired" := by
  have h := (C4_amended cleanId "fb" ⟨some "x", "1.1.5", "paired"⟩ []
    "Atropos version: 1.1.5\n").1 (by decide) (by decide)
  refine ⟨h.1, ?_⟩
  rw [h.2.1]
  decide

/-- Claim C10: while no sample is active, an input line that is not a
sample-ID line mutates nothing — the whole module state (scalar data,
histograms, adapter list, data-source attributions) passes through
unchanged, and the sample name stays none; the same holds for a
version-marker line even if a sample was active before it. -/
theorem C10_inactive_frame (clean : String → String) (fb : String) (ctx : RunCtx)
    (st : AtroposState) (l : String) (rest : List String)
    (h1 : ctx.s_name = none ∨ hasSubStr l "Atropos version" = true)
    (h2 : startsWithStr l "Sample ID: " = false) :
    ∃ ctx1 : RunCtx, ctx1.s_name = none ∧
      scanLines clean fb .outer ctx st (l :: rest) =
        scanLines clean fb .outer ctx1 st rest := by
  have hdata : (stepPre clean fb ctx st.data l).2 = st.data := by
    unfold stepPre
    simp only [h2, Bool.false_eq_true, if_false]
  have hname : (stepPre clean fb ctx st.data l).1.s_name = none := by
    unfold stepPre
    rcases h1 with h1 | h1
    · simp only [h2, Bool.false_eq_true, if_false]
      split <;> split <;> simp_all
    · simp only [h1, h2, if_true, Bool.false_eq_true, if_false]
      split <;> rfl
  refine ⟨(stepPre clean fb ctx st.data l).1, hname, ?_⟩
  simp only [scanLines, hname, hdata]

/-- Witness for C10: with no active sample, even a line matching a scalar
regex changes nothing. -/
theorem C10_witness :
    ∃ ctx1 : RunCtx, ctx1.s_name = none ∧
      scanLines cleanId "fb" .outer initCtx initState
        ["Total reads processed: 100 \n"] =
      scanLines cleanId "fb" .outer ctx1 initState [] :=
  C10_inactive_frame cleanId "fb" initCtx initState
    "Total reads processed: 100 \n" [] (Or.inl rfl) (by decide)

/-- Claim C6: a sample-ID line replaces any existing record for the
extracted name with a fresh empty record, non-fatally, so after a
duplicate block the final record holds only fields parsed after the
second sample-ID line; concretely, a two-block file whose first block
stored `bp_processed` ends with a record holding only the second block's
`r_processed`/`r_written` and the derived `r_lost`. -/
theorem C6_duplicate_overwrite :
    (∀ (clean : String → String) (fb : String) (ctx : RunCtx) (data : DataMap)
       (l raw : String),
      startsWithStr l "Sample ID: " = true → lastTok l = some raw →
      (stepPre clean fb ctx data l).2 =
        insertD data (if raw = "-" then fb else clean raw) [] ∧
      (stepPre clean fb ctx data l).1.s_name =
        some (if raw = "-" then fb else clean raw)) ∧
    runAll cleanId [("fb", cxFileTwoBlocks)] =
      .ok { data := [("s1", [("r_processed", Val.I 7), ("r_written", Val.I 3),
                             ("r_lost", Val.I 4)])],
            length_counts := [], length_exp := [], found_adapters := [],
            data_sources := ["s1", "s1", "s1", "s1", "s1"] } := by
  constructor
  · intro clean fb ctx data l raw h1 h2
    unfold stepPre
    simp only [h1, if_true, h2]
    constructor <;> trivial
  · decide

/-- Witness for C6: overwriting a record that already holds a field
leaves a fresh empty record for that name. -/
theorem C6_witness :
    (stepPre cleanId "fb" initCtx [("s1", [("bp_processed", Val.I 1000)])]
      "Sample ID: s1\n").2 = [("s1", [])] := by
  have h := (C6_duplicate_overwrite.1 cleanId "fb" initCtx
    [("s1", [("bp_processed", Val.I 1000)])] "Sample ID: s1\n" "s1"
    (by decide) (by decide)).1
  rw [h]
  decide

/-- Claim C8: over any run, the discovered-adapter list never contains an
adapter twice, and every successful scan only appends adapters that were
not yet present, in first-appearance order, even when an adapter recurs
across samples or files. -/
theorem C8_adapter_discovery :
    (∀ (clean : String → String) (files : List (String × List String))
       (st' : AtroposState),
      runAll clean files = .ok st' → st'.found_adapters.Nodup) ∧
    (∀ (clean : String → String) (fb : String) (lines : List String) (mode : Mode)
       (ctx : RunCtx) (st : AtroposState) (ctx' : RunCtx) (st' : AtroposState),
      scanLines clean fb mode ctx st lines = .ok (ctx', st') →
      ∃ t, st'.found_adapters = st.found_adapters ++ t ∧
        ∀ a ∈ t, a ∉ st.found_adapters) := by
  constructor
  · intro clean files st' h
    exact (runFiles_pres clean files initState st' h).2.1 List.nodup_nil
  · intro clean fb lines mode ctx st ctx' st' h
    exact (scan_pres clean fb lines mode ctx st ctx' st' h).1

/-- Witness for C8: a file in which adapter `ACGT` appears under two
samples yields a duplicate-free discovery list. -/
theorem C8_witness :
    stAdapterTwice.found_adapters.Nodup ∧
    runAll cleanId [("fb", cxFileAdapterTwice)] = .ok stAdapterTwice :=
  have h : runAll cleanId [("fb", cxFileAdapterTwice)] = .ok stAdapterTwice := by
    with_unfolding_all decide
  ⟨C8_adapter_discovery.1 cleanId [("fb", cxFileAdapterTwice)] stAdapterTwice h, h⟩

/-- Claim C9: after any successful run, the length-count histogram and the
expected-count histogram have exactly the same key structure: same
adapters, per adapter the same samples, per sample the same lengths. -/
theorem C9_same_shape (clean : String → String) (files : List (String × List String))
    (st' : AtroposState) (h : runAll clean files = .ok st') :
    shape3 st'.length_counts = shape3 st'.length_exp :=
  (runFiles_pres clean files initState st' h).2.2 rfl

/-- Witness for C9: the two-sample adapter file produces histograms of
identical shape. -/
theorem C9_witness :
    shape3 stAdapterTwice.length_counts = shape3 stAdapterTwice.length_exp :=
  C9_same_shape cleanId [("fb", cxFileAdapterTwice)] stAdapterTwice
    (by with_unfolding_all decide)

/-- Any successful finalization of a record is the record plus `r_lost`,
possibly plus `percent_trimmed`. -/
theorem finalizeRecord_ok_form (d d' : SampleRec) (p w : Val)
    (hp : lookupD d "r_processed" = some p) (hw : lookupD d "r_written" = some w)
    (hok : finalizeRecord d = .ok d') :
    d' = insertD d "r_lost" (Val.I (valTrunc p - valTrunc w)) ∨
    ∃ v, d' = insertD (insertD d "r_lost" (Val.I (valTrunc p - valTrunc w)))
      "percent_trimmed" v := by
  unfold finalizeRecord at hok
  simp only [hp, hw] at hok
  split at hok
  · split at hok
    · split at hok
      · cases hok
      · cases hok
        exact Or.inr ⟨_, rfl⟩
    · cases hok
      exact Or.inl rfl
  · split at hok
    · split at hok
      · split at hok
        · cases hok
        · cases hok
          exact Or.inr ⟨_, rfl⟩
      · cases hok
        exact Or.inl rfl
    · cases hok
      exact Or.inl rfl

/-- Claim C5: finalization adds `r_lost = r_processed - r_written` to
every sample record it completes; a record missing either required field
makes `finalizeRecord` raise `KeyError` instead of being skipped, and any
record failure makes the whole finalization pass of the file fail. -/
theorem C5_finalization :
    (∀ d : SampleRec,
      (lookupD d "r_processed" = none ∨ lookupD d "r_written" = none) →
      finalizeRecord d = .error .keyError) ∧
    (∀ (d : SampleRec) (p w : Val) (d' : SampleRec),
      lookupD d "r_processed" = some p → lookupD d "r_written" = some w →
      finalizeRecord d = .ok d' →
      lookupD d' "r_lost" = some (Val.I (valTrunc p - valTrunc w))) ∧
    (∀ (data : DataMap) (s : String) (d0 : SampleRec) (e : ParseErr),
      lookupD data s = some d0 → finalizeRecord d0 = .error e →
      ∃ e', finalizeData data = .error e') := by
  refine ⟨?_, ?_, ?_⟩
  · intro d h
    unfold finalizeRecord
    rcases h with h | h
    · cases hw : lookupD d "r_written" <;> simp [h, hw]
    · cases hp : lookupD d "r_processed" <;> simp [h, hp]
  · intro d p w d' hp hw hok
    rcases finalizeRecord_ok_form d d' p w hp hw hok with hform | ⟨v, hform⟩
    · rw [hform, lookupD_insertD_self]
    · rw [hform, lookupD_insertD_ne _ _ _ _ (by decide), lookupD_insertD_self]
  · intro data
    induction data with
    | nil => intro s d0 e h; simp [lookupD] at h
    | cons q t ih =>
      intro s d0 e h herr
      obtain ⟨s0, r0⟩ := q
      by_cases hs : s = s0
      · subst hs
        simp only [lookupD, if_pos rfl] at h
        cases h
        exact ⟨e, by simp [finalizeData, herr]⟩
      · simp only [lookupD, if_neg hs] at h
        cases hr : finalizeRecord r0 with
        | error e0 => exact ⟨e0, by simp [finalizeData, hr]⟩
        | ok d1 =>
          obtain ⟨e1, he1⟩ := ih s d0 e h herr
          exact ⟨e1, by simp [finalizeData, hr, he1]⟩

/-- Witness for C5: a record lacking `r_processed` makes finalization
fail with `KeyError`. -/
theorem C5_witness :
    finalizeRecord [("r_written", Val.I 5)] = .error .keyError :=
  C5_finalization.1 [("r_written", Val.I 5)] (Or.inl (by decide))

/-- Claim C2, counterexample.  The claim says `bp_processed` together
with `bp_trimmed` and/or `quality_trimmed` yields
`percent_trimmed = 100 * (bp_trimmed + quality_trimmed) / bp_processed`
with missing addends defaulting to zero.  A parsed sample with
`bp_processed = 1000` and `quality_trimmed = 50` but no `bp_written` and
no `bp_trimmed` would then get `percent_trimmed = 5.0`; the code's branch
requires the key `bp_trimmed` itself, so no `percent_trimmed` is stored
at all. -/
theorem C2_counterexample :
    ((runAll cleanId [("fb", cxFileQualityOnly)]).toOption.bind
      (fun st => (lookupD st.data "s1").map (fun r =>
        (lookupD r "bp_processed", lookupD r "quality_trimmed",
         lookupD r "bp_written", lookupD r "percent_trimmed")))) =
      some (some (Val.I 1000), some (Val.I 50), none, none) := by
  decide

/-- Claim C2, amended: with both `bp_processed` and `bp_written` present,
`percent_trimmed = 100 * (bp_processed - bp_written) / bp_processed`;
otherwise the second branch requires `bp_processed` AND `bp_trimmed` both
present and computes
`100 * (bp_trimmed + quality_trimmed) / bp_processed` with only
`quality_trimmed` defaulting to zero (a record with `quality_trimmed`
but no `bp_trimmed` gets no `percent_trimmed`); in particular
`bp_processed = 1000`, `bp_trimmed = 150`, `quality_trimmed = 50` gives
`percent_trimmed = 20.0`. -/
theorem C2_amended (d : SampleRec) (p rp rw0 : Val)
    (hrp : lookupD d "r_processed" = some rp)
    (hrw : lookupD d "r_written" = some rw0)
    (hbp : lookupD d "bp_processed" = some p)
    (hp0 : valToRat p ≠ 0) :
    (∀ w, lookupD d "bp_written" = some w →
      ∃ d', finalizeRecord d = .ok d' ∧
        lookupD d' "percent_trimmed" =
          some (Val.F ((valToRat p - valToRat w) / valToRat p * 100))) ∧
    (lookupD d "bp_written" = none →
     ∀ t, lookupD d "bp_trimmed" = some t →
      ∃ d', finalizeRecord d = .ok d' ∧
        lookupD d' "percent_trimmed" =
          some (Val.F ((valToRat t +
            (match lookupD d "quality_trimmed" with
             | some q => valToRat q
             | none => 0)) / valToRat p * 100))) ∧
    (lookupD d "bp_written" = none → lookupD d "bp_trimmed" = none →
     lookupD d "percent_trimmed" = none →
      ∃ d', finalizeRecord d = .ok d' ∧
        lookupD d' "percent_trimmed" = none) := by
  have hbp1 : lookupD (insertD d "r_lost" (Val.I (valTrunc rp - valTrunc rw0)))
      "bp_processed" = some p := by
    rw [lookupD_insertD_ne _ _ _ _ (by decide)]; exact hbp
  refine ⟨?_, ?_, ?_⟩
  · intro w hw
    have hbw1 : lookupD (insertD d "r_lost" (Val.I (valTrunc rp - valTrunc rw0)))
        "bp_written" = some w := by
      rw [lookupD_insertD_ne _ _ _ _ (by decide)]; exact hw
    have hfin : finalizeRecord d =
        .ok (insertD (insertD d "r_lost" (Val.I (valTrunc rp - valTrunc rw0)))
          "percent_trimmed"
          (Val.F ((valToRat p - valToRat w) / valToRat p * 100))) := by
      unfold finalizeRecord
      simp only [hrp, hrw, hbp1, hbw1, Option.isSome_some, Bool.and_self, if_true]
      rw [if_neg hp0]
    exact ⟨_, hfin, lookupD_insertD_self _ _ _⟩
  · intro hbw t hbt
    have hbw1 : lookupD (insertD d "r_lost" (Val.I (valTrunc rp - valTrunc rw0)))
        "bp_written" = none := by
      rw [lookupD_insertD_ne _ _ _ _ (by decide)]; exact hbw
    have hbt1 : lookupD (insertD d "r_lost" (Val.I (valTrunc rp - valTrunc rw0)))
        "bp_trimmed" = some t := by
      rw [lookupD_insertD_ne _ _ _ _ (by decide)]; exact hbt
    have hq1 : lookupD (insertD d "r_lost" (Val.I (valTrunc rp - valTrunc rw0)))
        "quality_trimmed" = lookupD d "quality_trimmed" :=
      lookupD_insertD_ne _ _ _ _ (by decide)
    have hfin : finalizeRecord d =
        .ok (insertD (insertD d "r_lost" (Val.I (valTrunc rp - valTrunc rw0)))
          "percent_trimmed"
          (Val.F ((valToRat t +
            (match lookupD d "quality_trimmed" with
             | some q => valToRat q
             | none => 0)) / valToRat p * 100))) := by
      unfold finalizeRecord
      simp only [hrp, hrw, hbp1, hbw1, hbt1, hq1, Option.isSome_some,
        Option.isSome_none, Bool.and_false, Bool.and_self, Bool.false_eq_true,
        if_false, if_true]
      rw [if_neg hp0]
    exact ⟨_, hfin, lookupD_insertD_self _ _ _⟩
  · intro hbw hbt hpt
    have hbw1 : lookupD (insertD d "r_lost" (Val.I (valTrunc rp - valTrunc rw0)))
        "bp_written" = none := by
      rw [lookupD_insertD_ne _ _ _ _ (by decide)]; exact hbw
    have hbt1 : lookupD (insertD d "r_lost" (Val.I (valTrunc rp - valTrunc rw0)))
        "bp_trimmed" = none := by
      rw [lookupD_insertD_ne _ _ _ _ (by decide)]; exact hbt
    have hfin : finalizeRecord d =
        .ok (insertD d "r_lost" (Val.I (valTrunc rp - valTrunc rw0))) := by
      unfold finalizeRecord
      simp only [hrp, hrw, hbw1, hbt1, Option.isSome_none, Bool.and_false,
        Bool.false_eq_true, if_false]
    refine ⟨_, hfin, ?_⟩
    rw [lookupD_insertD_ne _ _ _ _ (by decide)]
    exact hpt

/-- Witness for C2: the amended second branch at the claim's own example
record gives `percent_trimmed = 20.0`. -/
theorem C2_witness :
    ∃ d', finalizeRecord
        [("r_processed", Val.I 100), ("r_written", Val.I 90),
         ("bp_processed", Val.I 1000), ("bp_trimmed", Val.I 150),
         ("quality_trimmed", Val.I 50)] = .ok d' ∧
      lookupD d' "percent_trimmed" = some (Val.F 20) := by
  have h := (C2_amended
    [("r_processed", Val.I 100), ("r_written", Val.I 90),
     ("bp_processed", Val.I 1000), ("bp_trimmed", Val.I 150),
     ("quality_trimmed", Val.I 50)]
    (Val.I 1000) (Val.I 100) (Val.I 90)
    (by decide) (by decide) (by decide) (by norm_num [valToRat])).2.1
    (by decide) (Val.I 150) (by decide)
  obtain ⟨d', hfin, hpt⟩ := h
  refine ⟨d', hfin, ?_⟩
  rw [hpt]
  rw [show lookupD
      [("r_processed", Val.I 100), ("r_written", Val.I 90),
       ("bp_processed", Val.I 1000), ("bp_trimmed", Val.I 150),
       ("quality_trimmed", Val.I 50)] "quality_trimmed" = some (Val.I 50) from by
    decide]
  norm_num [valToRat]

end Atropos
